import Mathlib

/-!
Verification development for the rules/search core of a Klondike Solitaire
implementation (TypeScript).  The definitions below are a shallow embedding of
the source files:

  * `core/types.ts`    — card / pile / game-state model,
  * `core/deck.ts`     — deck factory,
  * dealer (`dealNewGame`),
  * `core/rules.ts`    — legality predicates and transitions,
  * `core/autocomplete.ts`,
  * `core/serialization.ts`,
  * `app/api/solve-game/route.ts` — the bounded DFS solver.

JavaScript conventions are modelled as follows: piles are Lean lists (index 0
is the front of the JS array); a thrown exception is `Except.error`; `Date.now()`
timestamps are modelled as the constant 0 (no claim depends on wall-clock
values); `JSON.stringify`/`JSON.parse` of a record are modelled as the identity
on the abstract record (field sets and orders are fixed in the source); the
solver's wall-clock budget checks (`Date.now() - startTime > maxTime`) are
modelled as never firing, which only affects the not-found direction and never
makes the solver report `found: true` when a run of the source could not.
-/

namespace Solitaire

/-- `Suit` from `core/types.ts` (`"♠︎" | "♥︎" | "♦︎" | "♣︎"`). -/
inductive Suit where
  | spades | hearts | diamonds | clubs
deriving DecidableEq, Repr, Fintype

/-- The suit's display string, exactly the TypeScript string literal
(the symbols carry the text variation selector U+FE0E, as in the source). -/
def Suit.symbol : Suit → String
  | .spades => "♠︎"
  | .hearts => "♥︎"
  | .diamonds => "♦︎"
  | .clubs => "♣︎"

/-- `isRed` from `core/types.ts`. -/
def isRed (s : Suit) : Bool := s == .hearts || s == .diamonds

/-- `isBlack` from `core/types.ts`. -/
def isBlack (s : Suit) : Bool := s == .spades || s == .clubs

/-- `Card` from `core/types.ts`: `{ id, suit, rank (1..13), faceUp }`. -/
structure Card where
  id : String
  suit : Suit
  rank : Nat
  faceUp : Bool
deriving DecidableEq, Repr

/-- `PileId` from `core/types.ts` — the 13 pile-identifier string literals,
one constructor per literal. -/
inductive PileId where
  | stock | waste
  | foundationSpades | foundationHearts | foundationDiamonds | foundationClubs
  | tableau1 | tableau2 | tableau3 | tableau4 | tableau5 | tableau6 | tableau7
deriving DecidableEq, Repr

/-- Models `pileId.startsWith("foundation-")`. -/
def PileId.isFoundation : PileId → Bool
  | .foundationSpades | .foundationHearts | .foundationDiamonds | .foundationClubs => true
  | _ => false

/-- Models `pileId.startsWith("tableau-")`. -/
def PileId.isTableau : PileId → Bool
  | .tableau1 | .tableau2 | .tableau3 | .tableau4 | .tableau5 | .tableau6 | .tableau7 => true
  | _ => false

/-- `GameState` from `core/types.ts`.  Each source pile object `{id, cards}`
carries a constant `id` fixed by its position in the state record, so the
embedding keeps only the card lists.  `drawMode` is 1 or 3 in the source type;
it is widened to `Nat` here (no operation relies on the restriction). -/
structure GameState where
  stock : List Card
  waste : List Card
  fSpades : List Card
  fHearts : List Card
  fDiamonds : List Card
  fClubs : List Card
  t1 : List Card
  t2 : List Card
  t3 : List Card
  t4 : List Card
  t5 : List Card
  t6 : List Card
  t7 : List Card
  drawMode : Nat
  moves : Nat
  score : Int
  startTime : Nat
  isComplete : Bool
deriving DecidableEq, Repr

/-- `Move` from `core/types.ts`.  The source fields `from` and `to` are named
`fromId` and `toId` here (`from` is a Lean keyword). -/
structure Move where
  fromId : PileId
  toId : PileId
  cards : List Card
  timestamp : Nat
deriving DecidableEq, Repr

/-- `flipCard` from `core/deck.ts`: `{...card, faceUp}`. -/
def flipCard (c : Card) (faceUp : Bool) : Card := { c with faceUp := faceUp }

/-- `getPileById` from `core/rules.ts`, restricted to its card-list payload.
The source's `default: return null` branch is unreachable because `PileId` is
an enumeration of exactly the 13 valid pile ids. -/
def getPileCards (s : GameState) : PileId → List Card
  | .stock => s.stock
  | .waste => s.waste
  | .foundationSpades => s.fSpades
  | .foundationHearts => s.fHearts
  | .foundationDiamonds => s.fDiamonds
  | .foundationClubs => s.fClubs
  | .tableau1 => s.t1
  | .tableau2 => s.t2
  | .tableau3 => s.t3
  | .tableau4 => s.t4
  | .tableau5 => s.t5
  | .tableau6 => s.t6
  | .tableau7 => s.t7

/-- Writing through the reference returned by `getPileById`
(`pile.cards = ...` in the source mutates the pile held by the state). -/
def setPileCards (s : GameState) (p : PileId) (l : List Card) : GameState :=
  match p with
  | .stock => { s with stock := l }
  | .waste => { s with waste := l }
  | .foundationSpades => { s with fSpades := l }
  | .foundationHearts => { s with fHearts := l }
  | .foundationDiamonds => { s with fDiamonds := l }
  | .foundationClubs => { s with fClubs := l }
  | .tableau1 => { s with t1 := l }
  | .tableau2 => { s with t2 := l }
  | .tableau3 => { s with t3 := l }
  | .tableau4 => { s with t4 := l }
  | .tableau5 => { s with t5 := l }
  | .tableau6 => { s with t6 := l }
  | .tableau7 => { s with t7 := l }

/-- `canPlaceOnFoundation` from `core/rules.ts`. -/
def canPlaceOnFoundation (card : Card) (foundationCards : List Card) : Bool :=
  match foundationCards.getLast? with
  | none => card.rank == 1
  | some topCard => card.suit == topCard.suit && card.rank == topCard.rank + 1

/-- `canPlaceOnTableau` from `core/rules.ts`. -/
def canPlaceOnTableau (cards : List Card) (tableauCards : List Card) : Bool :=
  match cards with
  | [] => false
  | cardToPlace :: _ =>
    match tableauCards.getLast? with
    | none => cardToPlace.rank == 13
    | some topCard =>
      cardToPlace.rank + 1 == topCard.rank &&
        ((isRed cardToPlace.suit && isBlack topCard.suit) ||
         (isBlack cardToPlace.suit && isRed topCard.suit))

/-- The backwards scan of `getMovableTableauCards` (`core/rules.ts`), processing
the pile's cards from the last towards the first.  `acc` is the `movableCards`
array; its head, when non-empty, is `tableauCards[i + 1]` for the current index
`i`.  Note the source `unshift`s the card *before* testing the sequence
condition, so a card that breaks the run is still included in the result. -/
def gmtcGo : List Card → List Card → List Card
  | [], acc => acc
  | card :: rest, acc =>
    if !card.faceUp then acc
    else
      let acc' := card :: acc
      match acc with
      | [] => gmtcGo rest acc'
      | nextCard :: _ =>
        if card.rank == nextCard.rank + 1 &&
            ((isRed card.suit && isBlack nextCard.suit) ||
             (isBlack card.suit && isRed nextCard.suit)) then
          gmtcGo rest acc'
        else acc'

/-- `getMovableTableauCards` from `core/rules.ts`. -/
def getMovableTableauCards (tableauCards : List Card) : List Card :=
  gmtcGo tableauCards.reverse []

/-- `isValidMove` from `core/rules.ts`.  The index-by-index id comparison of
`moveCards` against the trailing cards of the source pile is expressed as an
equality of the id lists (the lengths agree under the preceding length guard).
The source's `if (!fromPile || !toPile) return false` is unreachable here
because every `PileId` resolves to a pile. -/
def isValidMove (move : Move) (s : GameState) : Bool :=
  match move.cards with
  | [] => false
  | c0 :: _ =>
    let fromCards := getPileCards s move.fromId
    let toCards := getPileCards s move.toId
    if fromCards.length < move.cards.length then false
    else if (fromCards.drop (fromCards.length - move.cards.length)).map Card.id
        != move.cards.map Card.id then false
    else if move.toId.isFoundation then
      move.cards.length == 1 && canPlaceOnFoundation c0 toCards
    else if move.toId.isTableau then
      canPlaceOnTableau move.cards toCards
    else if move.fromId == .stock && move.toId == .waste then
      true
    else false

/-- `isGameComplete` from `core/rules.ts`. -/
def isGameComplete (s : GameState) : Bool :=
  s.fSpades.length + s.fHearts.length + s.fDiamonds.length + s.fClubs.length == 52

/-- The "flip the top card of the source tableau if it is face down" step of
`applyMove`: replace the last element of the pile by its face-up copy when it
is face down (no-op on an empty pile, matching the `length > 0` guard). -/
def flipLastIfDown (l : List Card) : List Card :=
  match l.getLast? with
  | none => l
  | some topCard =>
    if !topCard.faceUp then l.dropLast ++ [flipCard topCard true] else l

/-- `applyMove` from `core/rules.ts`.  `Except.error` models the thrown
`Error("Invalid move")`.  The source deep-clones the state and then mutates the
clone; the two pile writes are sequential, which matters when
`move.fromId = move.toId` (both names alias the same pile object).  The clone
itself is the identity in a functional setting. -/
def applyMove (move : Move) (s : GameState) : Except String GameState :=
  if !isValidMove move s then .error "Invalid move"
  else
    -- fromPile.cards = fromPile.cards.slice(0, -move.cards.length)
    let fromCards := getPileCards s move.fromId
    let s1 := setPileCards s move.fromId
      (fromCards.take (fromCards.length - move.cards.length))
    -- toPile.cards.push(...move.cards)
    let s2 := setPileCards s1 move.toId (getPileCards s1 move.toId ++ move.cards)
    -- flip the exposed top card of a source tableau
    let s3 := if move.fromId.isTableau then
        setPileCards s2 move.fromId (flipLastIfDown (getPileCards s2 move.fromId))
      else s2
    let s4 := { s3 with moves := s3.moves + 1 }
    .ok { s4 with isComplete := isGameComplete s4 }

/-- `drawFromStock` from `core/rules.ts`. -/
def drawFromStock (s : GameState) : GameState :=
  if s.stock.length == 0 then
    -- recycle waste back to stock: [...waste].reverse().map(flip face-down)
    { s with stock := s.waste.reverse.map (fun c => flipCard c false), waste := [] }
  else
    let cardsToDraw := min s.drawMode s.stock.length
    let drawnCards := s.stock.take cardsToDraw
    { s with stock := s.stock.drop cardsToDraw,
             waste := s.waste ++ drawnCards.map (fun c => flipCard c true) }

/-- The result record of `makeMove` (`{ success, state?, error? }`). -/
structure MoveResult where
  success : Bool
  state : Option GameState
  error : Option String
deriving DecidableEq, Repr

/-- `makeMove` from `core/rules.ts`: validates, then applies; the `catch`
branch converts a thrown error into a structured failure. -/
def makeMove (s : GameState) (move : Move) : MoveResult :=
  if !isValidMove move s then
    { success := false, state := none, error := some "Invalid move" }
  else
    match applyMove move s with
    | .ok newState => { success := true, state := some newState, error := none }
    | .error e => { success := false, state := none, error := some e }

/-! ### Deck factory and dealer -/

/-- `SUITS` from `core/deck.ts`. -/
def SUITS : List Suit := [.spades, .hearts, .diamonds, .clubs]

/-- `RANKS` from `core/deck.ts`. -/
def RANKS : List Nat := [1, 2, 3, 4, 5, 6, 7, 8, 9, 10, 11, 12, 13]

/-- `createDeck` from `core/deck.ts`: 4 suits × 13 ranks, all face-down, with
id `` `${suit}-${rank}` ``. -/
def createDeck : List Card :=
  SUITS.flatMap fun suit =>
    RANKS.map fun rank =>
      { id := suit.symbol ++ "-" ++ toString rank, suit := suit, rank := rank,
        faceUp := false }

/-- The all-empty initial `GameState` literal built at the top of
`dealNewGame` (dealer module).  `startTime = Date.now()` is modelled as 0. -/
def initialGameState (drawMode : Nat) : GameState :=
  { stock := [], waste := [], fSpades := [], fHearts := [], fDiamonds := [],
    fClubs := [], t1 := [], t2 := [], t3 := [], t4 := [], t5 := [], t6 := [],
    t7 := [], drawMode := drawMode, moves := 0, score := 0, startTime := 0,
    isComplete := false }

/-- `gameState.tableaux[row].cards.push(card)` for the numeric tableau keys of
the dealing loop; rows outside 1..7 leave the state unchanged (they do not
occur: the loop only produces rows 1..7). -/
def pushTableau (s : GameState) (row : Nat) (c : Card) : GameState :=
  match row with
  | 1 => { s with t1 := s.t1 ++ [c] }
  | 2 => { s with t2 := s.t2 ++ [c] }
  | 3 => { s with t3 := s.t3 ++ [c] }
  | 4 => { s with t4 := s.t4 ++ [c] }
  | 5 => { s with t5 := s.t5 ++ [c] }
  | 6 => { s with t6 := s.t6 ++ [c] }
  | 7 => { s with t7 := s.t7 ++ [c] }
  | _ => s

/-- The `(col, row)` iteration order of the dealing loop in `dealNewGame`:
for `col` from 1 to 7, for `row` from `col` to 7, deal one card to tableau
`row`.  Only the row matters for the push. -/
def dealPairs : List Nat :=
  (List.range' 1 7).flatMap fun col => List.range' col (8 - col)

/-- One iteration of the dealing loop: take `deck[cardIndex++]` (the front of
the undealt remainder) and push it, face-down, onto the target tableau.  The
empty-deck case models the out-of-range access and does not occur for 52-card
decks. -/
def dealStep : GameState × List Card → Nat → GameState × List Card
  | (s, []), _ => (s, [])
  | (s, card :: rest), row => (pushTableau s row { card with faceUp := false }, rest)

/-- The "flip the top card of each tableau pile" step of `dealNewGame`:
replace the last card by its face-up copy (no-op on an empty pile). -/
def flipLastUp (l : List Card) : List Card :=
  match l.getLast? with
  | none => l
  | some topCard => l.dropLast ++ [flipCard topCard true]

/-- All seven per-column flips of `dealNewGame` (the columns are independent,
so the sequential loop equals the simultaneous update). -/
def flipTableauTops (s : GameState) : GameState :=
  { s with t1 := flipLastUp s.t1, t2 := flipLastUp s.t2, t3 := flipLastUp s.t3,
           t4 := flipLastUp s.t4, t5 := flipLastUp s.t5, t6 := flipLastUp s.t6,
           t7 := flipLastUp s.t7 }

/-- `dealNewGame` from the dealer module.  The source draws
`createShuffledDeck()` internally (unseeded `Math.random`); the shuffled deck
is a parameter here, quantifying over every possible shuffle outcome.  After
the triangular deal the remaining cards (`deck.slice(cardIndex)`, which equals
the fold's undealt remainder) become the stock. -/
def dealNewGame (deck : List Card) (drawMode : Nat) : GameState :=
  let dealt := dealPairs.foldl dealStep (initialGameState drawMode, deck)
  let s2 := flipTableauTops dealt.1
  { s2 with stock := dealt.2 }

/-! ### Card conservation (claim C2) -/

/-- The list of every card in the state, over all thirteen piles. -/
def allCardsList (s : GameState) : List Card :=
  s.stock ++ s.waste ++ s.fSpades ++ s.fHearts ++ s.fDiamonds ++ s.fClubs ++
    s.t1 ++ s.t2 ++ s.t3 ++ s.t4 ++ s.t5 ++ s.t6 ++ s.t7

/-- The multiset of card ids of a card list. -/
def idsOf (l : List Card) : Multiset String := (l.map Card.id : List String)

/-- The multiset of card ids across all piles of a state. -/
def cardIds (s : GameState) : Multiset String := idsOf (allCardsList s)

/-- States reachable from `g0` by successful `applyMove`s and `drawFromStock`s. -/
inductive ReachableFrom (g0 : GameState) : GameState → Prop where
  | refl : ReachableFrom g0 g0
  | move {s s' : GameState} {m : Move} :
      ReachableFrom g0 s → applyMove m s = .ok s' → ReachableFrom g0 s'
  | draw {s : GameState} : ReachableFrom g0 s → ReachableFrom g0 (drawFromStock s)

theorem idsOf_append (l₁ l₂ : List Card) : idsOf (l₁ ++ l₂) = idsOf l₁ + idsOf l₂ := by
  simp [idsOf]

theorem cardIds_set_get (s : GameState) (p : PileId) (l : List Card) :
    cardIds (setPileCards s p l) + idsOf (getPileCards s p) = cardIds s + idsOf l := by
  cases p <;> simp [cardIds, allCardsList, setPileCards, getPileCards, idsOf_append] <;> abel

theorem idsOf_flipLastIfDown (l : List Card) : idsOf (flipLastIfDown l) = idsOf l := by
  unfold flipLastIfDown
  cases h : l.getLast? with
  | none => rfl
  | some topCard =>
    have hne : l ≠ [] := by
      intro he; rw [he] at h; simp at h
    have hds : l.dropLast ++ [topCard] = l := by
      have := List.dropLast_append_getLast hne
      rwa [List.getLast_eq_iff_getLast?_eq_some hne |>.mpr h] at this
    by_cases hf : topCard.faceUp
    · simp [hf]
    · simp only [hf, Bool.not_false, if_true]
      calc idsOf (l.dropLast ++ [flipCard topCard true])
          = idsOf l.dropLast + idsOf [flipCard topCard true] := idsOf_append _ _
        _ = idsOf l.dropLast + idsOf [topCard] := by simp [idsOf, flipCard]
        _ = idsOf (l.dropLast ++ [topCard]) := (idsOf_append _ _).symm
        _ = idsOf l := by rw [hds]

theorem idsOf_flipLastUp (l : List Card) : idsOf (flipLastUp l) = idsOf l := by
  unfold flipLastUp
  cases h : l.getLast? with
  | none => rfl
  | some topCard =>
    have hne : l ≠ [] := by
      intro he; rw [he] at h; simp at h
    have hds : l.dropLast ++ [topCard] = l := by
      have := List.dropLast_append_getLast hne
      rwa [List.getLast_eq_iff_getLast?_eq_some hne |>.mpr h] at this
    calc idsOf (l.dropLast ++ [flipCard topCard true])
        = idsOf l.dropLast + idsOf [flipCard topCard true] := idsOf_append _ _
      _ = idsOf l.dropLast + idsOf [topCard] := by simp [idsOf, flipCard]
      _ = idsOf (l.dropLast ++ [topCard]) := (idsOf_append _ _).symm
      _ = idsOf l := by rw [hds]

theorem isValidMove_trailing_ids (m : Move) (s : GameState) (h : isValidMove m s = true) :
    m.cards.length ≤ (getPileCards s m.fromId).length ∧
      ((getPileCards s m.fromId).drop
        ((getPileCards s m.fromId).length - m.cards.length)).map Card.id
        = m.cards.map Card.id := by
  unfold isValidMove at h
  rcases hm : m.cards with _ | ⟨c0, cs⟩ <;> rw [hm] at h
  · simp at h
  · simp only at h
    split at h
    · simp at h
    · split at h
      · simp at h
      · rename_i hlen hids
        refine ⟨by omega, ?_⟩
        simpa using hids

theorem cardIds_expand (s : GameState) :
    cardIds s = idsOf s.stock + idsOf s.waste + idsOf s.fSpades + idsOf s.fHearts +
      idsOf s.fDiamonds + idsOf s.fClubs + idsOf s.t1 + idsOf s.t2 + idsOf s.t3 +
      idsOf s.t4 + idsOf s.t5 + idsOf s.t6 + idsOf s.t7 := by
  simp only [cardIds, allCardsList, idsOf_append]

theorem applyMove_cardIds {m : Move} {s s' : GameState}
    (h : applyMove m s = .ok s') : cardIds s' = cardIds s := by
  have hvalid : isValidMove m s = true := by
    by_contra hv
    rw [Bool.not_eq_true] at hv
    simp [applyMove, hv] at h
  obtain ⟨hlen, hids⟩ := isValidMove_trailing_ids m s hvalid
  have h' : s' =
      (let fromCards := getPileCards s m.fromId
       let s1 := setPileCards s m.fromId
         (fromCards.take (fromCards.length - m.cards.length))
       let s2 := setPileCards s1 m.toId (getPileCards s1 m.toId ++ m.cards)
       let s3 := if m.fromId.isTableau then
           setPileCards s2 m.fromId (flipLastIfDown (getPileCards s2 m.fromId))
         else s2
       let s4 := { s3 with moves := s3.moves + 1 }
       { s4 with isComplete := isGameComplete s4 }) := by
    simp only [applyMove, hvalid, Bool.not_true, Bool.false_eq_true, if_false] at h
    exact (Except.ok.inj h).symm
  simp only at h'
  set L := getPileCards s m.fromId with hL
  set s1 := setPileCards s m.fromId (L.take (L.length - m.cards.length)) with hs1
  set s2 := setPileCards s1 m.toId (getPileCards s1 m.toId ++ m.cards) with hs2
  set s3 := (if m.fromId.isTableau then
      setPileCards s2 m.fromId (flipLastIfDown (getPileCards s2 m.fromId))
    else s2) with hs3
  have hsplit : idsOf L =
      idsOf (L.take (L.length - m.cards.length)) + idsOf m.cards := by
    conv_lhs => rw [← List.take_append_drop (L.length - m.cards.length) L]
    rw [idsOf_append]
    congr 1
    unfold idsOf
    rw [hids]
  have k1 : cardIds s1 + idsOf m.cards = cardIds s := by
    have h1 := cardIds_set_get s m.fromId (L.take (L.length - m.cards.length))
    rw [← hL, ← hs1, hsplit] at h1
    have h2 : (cardIds s1 + idsOf m.cards) +
        idsOf (L.take (L.length - m.cards.length)) =
        cardIds s + idsOf (L.take (L.length - m.cards.length)) := by
      calc (cardIds s1 + idsOf m.cards) + idsOf (L.take (L.length - m.cards.length))
          = cardIds s1 + (idsOf (L.take (L.length - m.cards.length)) + idsOf m.cards) := by
            abel
        _ = cardIds s + idsOf (L.take (L.length - m.cards.length)) := h1
    exact add_right_cancel h2
  have k2 : cardIds s2 = cardIds s1 + idsOf m.cards := by
    have h1 := cardIds_set_get s1 m.toId (getPileCards s1 m.toId ++ m.cards)
    rw [← hs2, idsOf_append] at h1
    have h2 : cardIds s2 + idsOf (getPileCards s1 m.toId) =
        (cardIds s1 + idsOf m.cards) + idsOf (getPileCards s1 m.toId) := by
      calc cardIds s2 + idsOf (getPileCards s1 m.toId)
          = cardIds s1 + (idsOf (getPileCards s1 m.toId) + idsOf m.cards) := h1
        _ = (cardIds s1 + idsOf m.cards) + idsOf (getPileCards s1 m.toId) := by abel
    exact add_right_cancel h2
  have k3 : cardIds s3 = cardIds s2 := by
    rw [hs3]
    split
    · have h1 := cardIds_set_get s2 m.fromId (flipLastIfDown (getPileCards s2 m.fromId))
      rw [idsOf_flipLastIfDown] at h1
      exact add_right_cancel h1
    · rfl
  have hck : cardIds s' = cardIds s3 := by
    rw [h']
    rw [cardIds_expand, cardIds_expand s3]
  rw [hck, k3, k2, k1]

theorem drawFromStock_cardIds (s : GameState) :
    cardIds (drawFromStock s) = cardIds s := by
  unfold drawFromStock
  split
  · rename_i h0
    have hstock : s.stock = [] := by
      simpa using List.length_eq_zero.mp (by simpa using h0)
    rw [cardIds_expand, cardIds_expand s]
    simp only [hstock]
    have hma : idsOf (s.waste.reverse.map fun c => flipCard c false) = idsOf s.waste := by
      unfold idsOf
      rw [List.map_map]
      have hcomp : (Card.id ∘ fun c => flipCard c false) = Card.id := rfl
      rw [hcomp, List.map_reverse]
      exact Multiset.coe_reverse _
    rw [hma]
    have hz : idsOf ([] : List Card) = 0 := rfl
    rw [hz]
    abel
  · rw [cardIds_expand, cardIds_expand s]
    simp only
    have hmap : idsOf ((s.stock.take (min s.drawMode s.stock.length)).map
        fun c => flipCard c true) =
        idsOf (s.stock.take (min s.drawMode s.stock.length)) := by
      unfold idsOf
      rw [List.map_map]
      rfl
    have htd : idsOf (s.stock.take (min s.drawMode s.stock.length)) +
        idsOf (s.stock.drop (min s.drawMode s.stock.length)) = idsOf s.stock := by
      rw [← idsOf_append, List.take_append_drop]
    rw [idsOf_append, hmap, ← htd]
    abel

theorem idsOf_cons (c : Card) (l : List Card) : idsOf (c :: l) = {c.id} + idsOf l := by
  unfold idsOf
  rw [List.map_cons, ← Multiset.cons_coe, Multiset.singleton_add]

theorem pushTableau_cardIds (s : GameState) (row : Nat) (c : Card)
    (h1 : 1 ≤ row) (h7 : row ≤ 7) :
    cardIds (pushTableau s row c) = {c.id} + cardIds s := by
  interval_cases row <;>
    simp only [pushTableau, cardIds_expand, idsOf_append] <;>
    · rw [show idsOf [c] = {c.id} + 0 from by simp [idsOf]]
      abel

theorem pushTableau_stock (s : GameState) (row : Nat) (c : Card) :
    (pushTableau s row c).stock = s.stock := by
  unfold pushTableau
  split <;> rfl

theorem dealFold_empty (pairs : List Nat) (s : GameState) :
    pairs.foldl dealStep (s, []) = (s, []) := by
  induction pairs with
  | nil => rfl
  | cons r rest ih => simpa [dealStep] using ih

theorem dealFold_cardIds (pairs : List Nat) (hb : ∀ r ∈ pairs, 1 ≤ r ∧ r ≤ 7) :
    ∀ (s : GameState) (deck : List Card),
      cardIds ((pairs.foldl dealStep (s, deck)).1) +
        idsOf ((pairs.foldl dealStep (s, deck)).2) = cardIds s + idsOf deck := by
  induction pairs with
  | nil => intro s deck; rfl
  | cons r rest ih =>
    intro s deck
    obtain ⟨hr1, hr7⟩ := hb r (List.mem_cons_self r rest)
    have hbrest : ∀ x ∈ rest, 1 ≤ x ∧ x ≤ 7 := fun x hx => hb x (List.mem_cons_of_mem r hx)
    cases deck with
    | nil =>
      rw [List.foldl_cons]
      have hds : dealStep (s, []) r = (s, []) := rfl
      rw [hds, dealFold_empty]
    | cons card rest' =>
      rw [List.foldl_cons]
      have hds : dealStep (s, card :: rest') r =
          (pushTableau s r { card with faceUp := false }, rest') := rfl
      rw [hds, ih hbrest]
      rw [pushTableau_cardIds s r _ hr1 hr7, idsOf_cons]
      have hid : ({ card with faceUp := false } : Card).id = card.id := rfl
      rw [hid]
      abel

theorem dealFold_stock (pairs : List Nat) :
    ∀ (s : GameState) (deck : List Card),
      ((pairs.foldl dealStep (s, deck)).1).stock = s.stock := by
  induction pairs with
  | nil => intro s deck; rfl
  | cons r rest ih =>
    intro s deck
    cases deck with
    | nil =>
      rw [List.foldl_cons]
      have hds : dealStep (s, []) r = (s, []) := rfl
      rw [hds, dealFold_empty]
    | cons card rest' =>
      rw [List.foldl_cons]
      have hds : dealStep (s, card :: rest') r =
          (pushTableau s r { card with faceUp := false }, rest') := rfl
      rw [hds, ih, pushTableau_stock]

theorem dealNewGame_cardIds (deck : List Card) (dm : Nat) :
    cardIds (dealNewGame deck dm) = idsOf deck := by
  unfold dealNewGame
  simp only
  set d := dealPairs.foldl dealStep (initialGameState dm, deck) with hd
  have hfold := dealFold_cardIds dealPairs (by decide) (initialGameState dm) deck
  rw [← hd] at hfold
  have hstock : d.1.stock = [] := by
    rw [hd, dealFold_stock]
    rfl
  have hinit : cardIds (initialGameState dm) = 0 := rfl
  rw [hinit, zero_add] at hfold
  rw [cardIds_expand]
  simp only [flipTableauTops]
  rw [idsOf_flipLastUp, idsOf_flipLastUp, idsOf_flipLastUp, idsOf_flipLastUp,
    idsOf_flipLastUp, idsOf_flipLastUp, idsOf_flipLastUp]
  rw [← hfold, cardIds_expand d.1, hstock]
  have hz : idsOf ([] : List Card) = 0 := rfl
  rw [hz]
  abel

theorem getPileCards_set_ne (s : GameState) (p q : PileId) (l : List Card)
    (h : p ≠ q) : getPileCards (setPileCards s p l) q = getPileCards s q := by
  cases p <;> cases q <;> first
    | exact absurd rfl h
    | rfl

theorem getPileCards_set_eq (s : GameState) (p : PileId) (l : List Card) :
    getPileCards (setPileCards s p l) p = l := by
  cases p <;> rfl

/-- The K♠ of the spec's §8 example scenario, face-down. -/
def kingSpadesDown : Card :=
  { id := "♠︎-13", suit := .spades, rank := 13, faceUp := false }

/-- The Q♥ of the spec's §8 example scenario, face-up. -/
def queenHeartsUp : Card :=
  { id := "♥︎-12", suit := .hearts, rank := 12, faceUp := true }

/-- A state whose tableau 1 is exactly `[K♠(down), Q♥(up)]` and whose
tableau 2 is empty (all other piles empty as well). -/
def scenarioC6State : GameState :=
  { initialGameState 1 with t1 := [kingSpadesDown, queenHeartsUp] }

/-- The 2-card move `[K♠(down), Q♥(up)]` from tableau 1 to the empty tableau 2. -/
def scenarioC6TwoCardMove : Move :=
  { fromId := .tableau1, toId := .tableau2,
    cards := [kingSpadesDown, queenHeartsUp], timestamp := 0 }

/-- The 1-card move `[Q♥(up)]` from tableau 1 to the empty tableau 2. -/
def scenarioC6QueenMove : Move :=
  { fromId := .tableau1, toId := .tableau2, cards := [queenHeartsUp], timestamp := 0 }

/-- An always-invalid move (no cards) used to exercise the rejection path. -/
def emptyCardsMove : Move :=
  { fromId := .waste, toId := .stock, cards := [], timestamp := 0 }

/-- C2: Card conservation invariant — for every state reachable from
`dealNewGame` (over any shuffle of the created deck) by successfully applied
moves and draws, the multiset of card ids across the stock, the waste, the
four foundations and the seven tableaux equals the 52 distinct card ids of the
dealt deck: no card is ever duplicated or lost. -/
theorem card_conservation (deck : List Card) (dm : Nat) (s : GameState)
    (hperm : deck.Perm createDeck)
    (hreach : ReachableFrom (dealNewGame deck dm) s) :
    cardIds s = idsOf createDeck ∧ (createDeck.map Card.id).Nodup ∧
      (createDeck.map Card.id).length = 52 := by
  refine ⟨?_, by decide, by decide⟩
  induction hreach with
  | refl => rw [dealNewGame_cardIds]; exact Multiset.coe_eq_coe.mpr (hperm.map Card.id)
  | move hr happ ih => rw [applyMove_cardIds happ]; exact ih
  | draw hr ih => rw [drawFromStock_cardIds]; exact ih

theorem card_conservation_witness :
    cardIds (dealNewGame createDeck 1) = idsOf createDeck ∧
      (createDeck.map Card.id).Nodup ∧ (createDeck.map Card.id).length = 52 :=
  card_conservation createDeck 1 (dealNewGame createDeck 1)
    (List.Perm.refl createDeck) ReachableFrom.refl

/-- C3 counterexample: the claim says an invalid move "does not throw an
exception"; but `applyMove` signals an invalid move precisely by throwing
(`throw new Error("Invalid move")`, modelled as `Except.error`) rather than by
returning a structured failure result.  Concretely, for the empty-cards move on
the empty initial state. -/
theorem move_rejection_counterexample :
    applyMove emptyCardsMove (initialGameState 1) = .error "Invalid move" := by rfl

/-- C3 amended: for every state `s` and every move `m` with
`isValidMove m s = false`, `applyMove` rejects the move by *throwing*
`Error("Invalid move")` (leaving the caller's state untouched, which is
implicit in the purely functional reading: the source checks validity before
cloning or mutating anything), and the wrapper `makeMove` is the layer that
reports the structured `{ success: false, error }` failure result. -/
theorem move_rejection_amended (s : GameState) (m : Move)
    (h : isValidMove m s = false) :
    applyMove m s = .error "Invalid move" ∧
      makeMove s m = { success := false, state := none, error := some "Invalid move" } := by
  constructor
  · simp [applyMove, h]
  · simp [makeMove, h]

theorem move_rejection_amended_witness :
    applyMove emptyCardsMove (initialGameState 1) = .error "Invalid move" ∧
      makeMove (initialGameState 1) emptyCardsMove =
        { success := false, state := none, error := some "Invalid move" } :=
  move_rejection_amended (initialGameState 1) emptyCardsMove (by rfl)

/-- The 5♥ (face-up) of the C5 failing input. -/
def fiveHeartsUp : Card := { id := "♥︎-5", suit := .hearts, rank := 5, faceUp := true }

/-- The 9♠ (face-up) of the C5 failing input. -/
def nineSpadesUp : Card := { id := "♠︎-9", suit := .spades, rank := 9, faceUp := true }

/-- C5: the claim (and the function's own documentation, "face-up cards ...
that form a valid sequence") requires the scan to stop at the first break of
the descending/alternating rule *without* including the breaking card.  The
code `unshift`s the card before testing the rule, so on the pile
`[5♥(up), 9♠(up)]` it returns both cards even though `5♥` on `9♠` breaks the
rank rule (5 ≠ 9 + 1): the result is not a valid descending run. -/
theorem movable_cards_includes_breaking_card :
    getMovableTableauCards [fiveHeartsUp, nineSpadesUp] = [fiveHeartsUp, nineSpadesUp] ∧
      (fiveHeartsUp.rank == nineSpadesUp.rank + 1) = false := by
  constructor
  · rfl
  · rfl

/-- C6 counterexample: the claim says the 2-card move `[K♠(down), Q♥(up)]`
onto an empty tableau is rejected because K♠ is face-down; but `isValidMove`
never inspects `faceUp` — it accepts the move (the trailing ids match and an
empty tableau accepts a King). -/
theorem face_down_move_counterexample :
    isValidMove scenarioC6TwoCardMove scenarioC6State = true := by decide

/-- C6 amended: in every state where some tableau holds exactly
`[K♠(down), Q♥(up)]` and another tableau is empty, the 1-card move of Q♥ to
the empty tableau is rejected (only Kings go to empty columns), as the claim
says; but the 2-card move of `[K♠(down), Q♥(up)]` is *accepted* by
`isValidMove`: the validator checks only that the moved cards' ids match the
source pile's trailing cards and that the first moved card may be placed, and
does not check that the moved cards are face-up (movability per
`getMovableTableauCards` is not consulted). -/
theorem face_down_move_amended (s : GameState) (i j : PileId)
    (hit : i.isTableau = true) (hjt : j.isTableau = true)
    (hi : getPileCards s i = [kingSpadesDown, queenHeartsUp])
    (hj : getPileCards s j = []) :
    isValidMove ⟨i, j, [kingSpadesDown, queenHeartsUp], 0⟩ s = true ∧
      isValidMove ⟨i, j, [queenHeartsUp], 0⟩ s = false := by
  have hjf : j.isFoundation = false := by
    cases j <;> simp_all [PileId.isTableau, PileId.isFoundation]
  constructor
  · simp [isValidMove, hi, hj, hjt, hjf, canPlaceOnTableau, kingSpadesDown, queenHeartsUp]
  · simp [isValidMove, hi, hj, hjt, hjf, canPlaceOnTableau, kingSpadesDown, queenHeartsUp]

theorem face_down_move_amended_witness :
    isValidMove scenarioC6TwoCardMove scenarioC6State = true ∧
      isValidMove scenarioC6QueenMove scenarioC6State = false :=
  face_down_move_amended scenarioC6State .tableau1 .tableau2
    (by rfl) (by rfl) (by rfl) (by rfl)

/-- C7: `drawFromStock` — with a non-empty stock it moves
`min(drawMode, stockSize)` cards from the front of the stock to the top of the
waste, flipped face-up with order preserved; with an empty stock it replaces
the stock by the reversed waste, all face-down, and empties the waste (so the
new stock size equals the prior waste size); in both cases the `moves` counter
is unchanged. -/
theorem draw_from_stock_spec (s : GameState) :
    (s.stock ≠ [] →
      (drawFromStock s).stock = s.stock.drop (min s.drawMode s.stock.length) ∧
      (drawFromStock s).waste =
        s.waste ++ (s.stock.take (min s.drawMode s.stock.length)).map
          (fun c => flipCard c true)) ∧
    (s.stock = [] →
      (drawFromStock s).stock = s.waste.reverse.map (fun c => flipCard c false) ∧
      (drawFromStock s).waste = [] ∧
      (drawFromStock s).stock.length = s.waste.length) ∧
    (drawFromStock s).moves = s.moves := by
  by_cases h : s.stock = []
  · refine ⟨fun hne => absurd h hne, fun _ => ?_, ?_⟩
    · simp [drawFromStock, h]
    · simp [drawFromStock, h]
  · have hlen : (s.stock.length == 0) = false := by
      simp [List.length_eq_zero, h]
    refine ⟨fun _ => ?_, fun he => absurd he h, ?_⟩
    · simp [drawFromStock, hlen]
    · simp [drawFromStock, hlen]

/-- A concrete two-card stock for exercising `drawFromStock`. -/
def drawTestState : GameState :=
  { initialGameState 1 with
      stock := [kingSpadesDown, { id := "♥︎-5", suit := .hearts, rank := 5, faceUp := false }] }

theorem draw_from_stock_spec_witness :
    (drawFromStock drawTestState).stock =
        drawTestState.stock.drop (min drawTestState.drawMode drawTestState.stock.length) ∧
      (drawFromStock drawTestState).waste =
        drawTestState.waste ++
          (drawTestState.stock.take (min drawTestState.drawMode drawTestState.stock.length)).map
            (fun c => flipCard c true) :=
  (draw_from_stock_spec drawTestState).1 (by decide)

/-- The ascending-ordered two-card tableau of the C10 counterexample:
5♥(up) directly under 6♠(up). -/
def sixSpadesUp : Card := { id := "♠︎-6", suit := .spades, rank := 6, faceUp := true }

/-- A state whose tableau 1 is `[5♥(up), 6♠(up)]` — a degenerate but
validator-accepted configuration for a self-move. -/
def stateC10 : GameState := { initialGameState 1 with t1 := [fiveHeartsUp, sixSpadesUp] }

/-- A self-move of tableau 1 onto itself whose claimed cards carry a lying
`faceUp` flag on the 6♠ (the ids still match the pile's trailing cards). -/
def moveC10 : Move :=
  { fromId := .tableau1, toId := .tableau1,
    cards := [fiveHeartsUp, { sixSpadesUp with faceUp := false }], timestamp := 0 }

/-- The state `applyMove moveC10 stateC10` produces (the error branch does not
occur; the fallback value is arbitrary). -/
def resultC10 : GameState :=
  match applyMove moveC10 stateC10 with
  | .ok s => s
  | .error _ => stateC10

/-- C10 counterexample: the self-move `moveC10` is accepted, but the
destination pile's new trailing cards are *not* `move.cards` as given by the
caller: the post-move flip of the source tableau's exposed top card rewrites
the face-down 6♠ that was just appended (source = destination here). -/
theorem caller_cards_appended_counterexample :
    isValidMove moveC10 stateC10 = true ∧
      applyMove moveC10 stateC10 = .ok resultC10 ∧
      (getPileCards resultC10 .tableau1).drop
          ((getPileCards resultC10 .tableau1).length - moveC10.cards.length)
        ≠ moveC10.cards := by
  refine ⟨by decide, by rfl, by decide⟩

/-- C10 amended: for every successfully applied move whose source and
destination piles differ, the destination pile's new trailing cards are
exactly `move.cards` as supplied by the caller — including their `faceUp`
flags — even when those fields differ from the cards stored in the source pile
(`isValidMove` compares ids only and `applyMove` appends the caller's
objects).  The restriction `move.from ≠ move.to` is forced by the degenerate
self-move counterexample, where the post-move flip may rewrite the appended
top card. -/
theorem caller_cards_appended_amended (s s' : GameState) (m : Move)
    (h : applyMove m s = .ok s') (hne : m.fromId ≠ m.toId) :
    (getPileCards s' m.toId).drop ((getPileCards s' m.toId).length - m.cards.length)
      = m.cards := by
  have hvalid : isValidMove m s = true := by
    by_contra hv
    rw [Bool.not_eq_true] at hv
    simp [applyMove, hv] at h
  have h' : s' =
      (let fromCards := getPileCards s m.fromId
       let s1 := setPileCards s m.fromId
         (fromCards.take (fromCards.length - m.cards.length))
       let s2 := setPileCards s1 m.toId (getPileCards s1 m.toId ++ m.cards)
       let s3 := if m.fromId.isTableau then
           setPileCards s2 m.fromId (flipLastIfDown (getPileCards s2 m.fromId))
         else s2
       let s4 := { s3 with moves := s3.moves + 1 }
       { s4 with isComplete := isGameComplete s4 }) := by
    simp only [applyMove, hvalid, Bool.not_true, Bool.false_eq_true, if_false] at h
    exact (Except.ok.inj h).symm
  simp only at h'
  set L := getPileCards s m.fromId with hL
  set s1 := setPileCards s m.fromId (L.take (L.length - m.cards.length)) with hs1
  set s2 := setPileCards s1 m.toId (getPileCards s1 m.toId ++ m.cards) with hs2
  have hto2 : getPileCards s2 m.toId = getPileCards s1 m.toId ++ m.cards :=
    getPileCards_set_eq s1 m.toId _
  have hcounters : ∀ (x : GameState) (n : Nat) (b : Bool) (p : PileId),
      getPileCards { x with moves := n, isComplete := b } p = getPileCards x p := by
    intro x n b p; cases p <;> rfl
  have hto' : getPileCards s' m.toId = getPileCards s1 m.toId ++ m.cards := by
    rw [h']
    split
    · rw [hcounters, getPileCards_set_ne _ _ _ _ hne, hto2]
    · rw [hcounters, hto2]
  rw [hto']
  have : (getPileCards s1 m.toId ++ m.cards).length - m.cards.length =
      (getPileCards s1 m.toId).length := by
    rw [List.length_append]; omega
  rw [this, List.drop_left]

/-- A well-behaved concrete instance for the amended C10 theorem: A♠ from the
waste to the spades foundation. -/
def aceSpadesUp : Card := { id := "♠︎-1", suit := .spades, rank := 1, faceUp := true }

/-- Concrete source state for the C10 witness. -/
def stateW10 : GameState := { initialGameState 1 with waste := [aceSpadesUp] }

/-- Concrete move for the C10 witness. -/
def moveW10 : Move :=
  { fromId := .waste, toId := .foundationSpades, cards := [aceSpadesUp], timestamp := 0 }

/-- The state `applyMove moveW10 stateW10` produces. -/
def resultW10 : GameState :=
  match applyMove moveW10 stateW10 with
  | .ok s => s
  | .error _ => stateW10

theorem caller_cards_appended_amended_witness :
    (getPileCards resultW10 .foundationSpades).drop
        ((getPileCards resultW10 .foundationSpades).length - moveW10.cards.length)
      = moveW10.cards :=
  caller_cards_appended_amended stateW10 resultW10 moveW10 (by rfl) (by decide)

/-! ### Serialization (`core/serialization.ts`) -/

/-- The suit letter of `serializeCard`'s `suitMap`
(`{"♠︎": "s", "♥︎": "h", "♦︎": "d", "♣︎": "c"}`). -/
def suitLetter : Suit → String
  | .spades => "s"
  | .hearts => "h"
  | .diamonds => "d"
  | .clubs => "c"

/-- `rank.toString(16)` for a natural number: lowercase hex digits. -/
def jsToString16 (n : Nat) : String := String.mk (Nat.toDigits 16 n)

/-- `serializeCard` from `core/serialization.ts`:
suit letter + hex rank + face flag. -/
def serializeCard (card : Card) : String :=
  suitLetter card.suit ++ jsToString16 card.rank ++ (if card.faceUp then "1" else "0")

/-- The value of a hex digit character (`0-9`, `a-f`, `A-F` at code points
48–57, 97–102, 65–70), `none` for non-digits. -/
def hexDigitVal (c : Char) : Option Nat :=
  let n := c.toNat
  if 48 ≤ n ∧ n ≤ 57 then some (n - 48)
  else if 97 ≤ n ∧ n ≤ 102 then some (n - 87)
  else if 65 ≤ n ∧ n ≤ 70 then some (n - 55)
  else none

/-- `parseInt(str, 16)`: skip leading whitespace, optional sign, optional
`0x`/`0X` prefix, then the maximal run of hex digits; `NaN` (modelled `none`)
when that run is empty.  (Exotic unicode whitespace is not modelled; the
inputs here are plain card tokens.) -/
def jsSpaceChar (c : Char) : Bool :=
  match c with
  | ' ' => true
  | '\t' => true
  | '\n' => true
  | '\r' => true
  | _ => false

def parseIntHex (str : String) : Option Int :=
  let l := str.data.dropWhile jsSpaceChar
  let (sign, l1) : Int × List Char :=
    match l with
    | '+' :: r => (1, r)
    | '-' :: r => (-1, r)
    | _ => (1, l)
  let l2 := match l1 with
    | '0' :: 'x' :: r => r
    | '0' :: 'X' :: r => r
    | _ => l1
  let digits := l2.takeWhile fun c => (hexDigitVal c).isSome
  if digits.isEmpty then none
  else some (sign * (digits.foldl (fun acc c => 16 * acc + ((hexDigitVal c).getD 0)) 0 : Nat))

/-- The card record built by `deserializeCard`: `suit` is `none` when
`suitMap[cardStr[0]]` is `undefined`, `rank` is `none` when `parseInt`
returned `NaN`. -/
structure DCard where
  id : String
  suit : Option Suit
  rank : Option Int
  faceUp : Bool
deriving DecidableEq, Repr

/-- `` `${suit}-${rank}` `` of `deserializeCard` (string interpolation of a
possibly-`undefined` suit and possibly-`NaN` rank). -/
def dcardId (suit : Option Suit) (rank : Option Int) : String :=
  (match suit with | some su => su.symbol | none => "undefined") ++ "-" ++
    (match rank with | some r => toString r | none => "NaN")

/-- `deserializeCard` from `core/serialization.ts`, called without an explicit
id (as `deserializeGameState` does): reads the suit letter from the first
character, the hex rank from `slice(1, -1)` and the face flag from the last
character, and regenerates the id from the decoded suit and rank. -/
def deserializeCard (cardStr : String) : DCard :=
  let suit : Option Suit :=
    match cardStr.data.head? with
    | some 's' => some .spades
    | some 'h' => some .hearts
    | some 'd' => some .diamonds
    | some 'c' => some .clubs
    | _ => none
  let rank : Option Int := parseIntHex (String.mk cardStr.data.tail.dropLast)
  let faceUp : Bool := String.mk (cardStr.data.drop (cardStr.data.length - 1)) == "1"
  { id := dcardId suit rank, suit := suit, rank := rank, faceUp := faceUp }

/-- The `foundations` sub-object of the wire format (keys `s/h/d/c`); a `none`
field models a missing key. -/
structure FoundationsShape where
  s : Option (List String)
  h : Option (List String)
  d : Option (List String)
  c : Option (List String)
deriving DecidableEq, Repr

/-- The `tableaux` sub-object of the wire format (keys `1`..`7`). -/
structure TableauxShape where
  tab1 : Option (List String)
  tab2 : Option (List String)
  tab3 : Option (List String)
  tab4 : Option (List String)
  tab5 : Option (List String)
  tab6 : Option (List String)
  tab7 : Option (List String)
deriving DecidableEq, Repr

/-- The parsed wire object of a serialized `GameState`
(`JSON.parse` result; `none` fields model missing keys). -/
structure SerializedShape where
  stock : Option (List String)
  waste : Option (List String)
  foundations : Option FoundationsShape
  tableaux : Option TableauxShape
  drawMode : Option Nat
  moves : Option Nat
deriving DecidableEq, Repr

/-- `serializeGameState` from `core/serialization.ts`, modelled up to
`JSON.stringify` (the wire string and its parse are the identity on this
abstract record): every pile is encoded with `serializeCard`, and every key is
present. -/
def serializeGameState (s : GameState) : SerializedShape :=
  { stock := some (s.stock.map serializeCard),
    waste := some (s.waste.map serializeCard),
    foundations := some
      { s := some (s.fSpades.map serializeCard),
        h := some (s.fHearts.map serializeCard),
        d := some (s.fDiamonds.map serializeCard),
        c := some (s.fClubs.map serializeCard) },
    tableaux := some
      { tab1 := some (s.t1.map serializeCard), tab2 := some (s.t2.map serializeCard),
        tab3 := some (s.t3.map serializeCard), tab4 := some (s.t4.map serializeCard),
        tab5 := some (s.t5.map serializeCard), tab6 := some (s.t6.map serializeCard),
        tab7 := some (s.t7.map serializeCard) },
    drawMode := some s.drawMode,
    moves := some s.moves }

/-- The `Partial<GameState>` record built by `deserializeGameState` (pile ids
and foundation suits are constants and, as in `GameState`, are kept implicit
in the field positions). -/
structure DPartialState where
  stock : List DCard
  waste : List DCard
  fSpades : List DCard
  fHearts : List DCard
  fDiamonds : List DCard
  fClubs : List DCard
  t1 : List DCard
  t2 : List DCard
  t3 : List DCard
  t4 : List DCard
  t5 : List DCard
  t6 : List DCard
  t7 : List DCard
  drawMode : Option Nat
  moves : Option Nat
deriving DecidableEq, Repr

/-- `deserializeGameState` from `core/serialization.ts`.  The source performs
no validation at all: it maps `deserializeCard` over whatever arrays are
present.  Accessing `.map` on a missing pile key throws a `TypeError`
(modelled as `Except.error "TypeError"`), in the evaluation order of the
object literal (`stock` first, then `waste`, `foundations.s/h/d/c`,
`tableaux[1..7]`); `drawMode`/`moves` are plain copies and may be absent
without error. -/
def deserializeGameState (data : SerializedShape) : Except String DPartialState :=
  match data.stock with
  | none => .error "TypeError"
  | some stockToks =>
  match data.waste with
  | none => .error "TypeError"
  | some wasteToks =>
  match data.foundations with
  | none => .error "TypeError"
  | some f =>
  match f.s, f.h, f.d, f.c with
  | some fsToks, some fhToks, some fdToks, some fcToks =>
    (match data.tableaux with
    | none => .error "TypeError"
    | some t =>
    match t.tab1, t.tab2, t.tab3, t.tab4, t.tab5, t.tab6, t.tab7 with
    | some t1Toks, some t2Toks, some t3Toks, some t4Toks, some t5Toks,
      some t6Toks, some t7Toks =>
      .ok { stock := stockToks.map deserializeCard,
            waste := wasteToks.map deserializeCard,
            fSpades := fsToks.map deserializeCard,
            fHearts := fhToks.map deserializeCard,
            fDiamonds := fdToks.map deserializeCard,
            fClubs := fcToks.map deserializeCard,
            t1 := t1Toks.map deserializeCard, t2 := t2Toks.map deserializeCard,
            t3 := t3Toks.map deserializeCard, t4 := t4Toks.map deserializeCard,
            t5 := t5Toks.map deserializeCard, t6 := t6Toks.map deserializeCard,
            t7 := t7Toks.map deserializeCard,
            drawMode := data.drawMode, moves := data.moves }
    | _, _, _, _, _, _, _ => .error "TypeError")
  | _, _, _, _ => .error "TypeError"

/-- The observable content of a reconstructed card: suit, rank, orientation. -/
def dcardContents (c : DCard) : Option Suit × Option Int × Bool := (c.suit, c.rank, c.faceUp)

/-- The observable content of an engine card, in the reconstructed card's
types. -/
def cardContents (c : Card) : Option Suit × Option Int × Bool :=
  (some c.suit, some (c.rank : Int), c.faceUp)

theorem roundTripContentsBounded : ∀ r < 14, ∀ (su : Suit) (f : Bool),
    dcardContents (deserializeCard (serializeCard ⟨"", su, r, f⟩)) =
      (some su, some (r : Int), f) := by decide

theorem deserializeCard_serializeCard (c : Card) (h : c.rank ≤ 13) :
    dcardContents (deserializeCard (serializeCard c)) = cardContents c := by
  have hser : serializeCard c = serializeCard ⟨"", c.suit, c.rank, c.faceUp⟩ := rfl
  rw [hser]
  exact roundTripContentsBounded c.rank (by omega) c.suit c.faceUp

theorem pile_round_trip (l : List Card) (h : ∀ c ∈ l, c.rank ≤ 13) :
    ((l.map serializeCard).map deserializeCard).map dcardContents = l.map cardContents := by
  induction l with
  | nil => rfl
  | cons c rest ih =>
    simp only [List.map_cons, List.cons.injEq]
    exact ⟨deserializeCard_serializeCard c (h c (List.mem_cons_self c rest)),
      ih fun x hx => h x (List.mem_cons_of_mem c hx)⟩

/-- C4: Serialization round-trip — for every `GameState` (with the domain's
rank bound), `deserializeGameState (serializeGameState s)` succeeds and
reconstructs piles whose card contents (suit, rank), order and `faceUp`
orientation are identical to those of `s`, with the same `drawMode` and
`moves`. -/
theorem serialization_round_trip (s : GameState)
    (hrank : ∀ c ∈ allCardsList s, c.rank ≤ 13) :
    ∃ d, deserializeGameState (serializeGameState s) = .ok d ∧
      d.stock.map dcardContents = s.stock.map cardContents ∧
      d.waste.map dcardContents = s.waste.map cardContents ∧
      d.fSpades.map dcardContents = s.fSpades.map cardContents ∧
      d.fHearts.map dcardContents = s.fHearts.map cardContents ∧
      d.fDiamonds.map dcardContents = s.fDiamonds.map cardContents ∧
      d.fClubs.map dcardContents = s.fClubs.map cardContents ∧
      d.t1.map dcardContents = s.t1.map cardContents ∧
      d.t2.map dcardContents = s.t2.map cardContents ∧
      d.t3.map dcardContents = s.t3.map cardContents ∧
      d.t4.map dcardContents = s.t4.map cardContents ∧
      d.t5.map dcardContents = s.t5.map cardContents ∧
      d.t6.map dcardContents = s.t6.map cardContents ∧
      d.t7.map dcardContents = s.t7.map cardContents ∧
      d.drawMode = some s.drawMode ∧ d.moves = some s.moves := by
  have hp : ∀ (l : List Card), (∀ c ∈ l, c ∈ allCardsList s) →
      ((l.map serializeCard).map deserializeCard).map dcardContents =
        l.map cardContents :=
    fun l hl => pile_round_trip l fun c hc => hrank c (hl c hc)
  refine ⟨_, rfl, ?_, ?_, ?_, ?_, ?_, ?_, ?_, ?_, ?_, ?_, ?_, ?_, ?_, rfl, rfl⟩ <;>
    · apply hp
      intro c hc
      simp only [allCardsList, List.mem_append]
      tauto

theorem serialization_round_trip_witness :
    (deserializeGameState (serializeGameState scenarioC6State)).isOk = true := by
  obtain ⟨d, hd, _⟩ := serialization_round_trip scenarioC6State (by decide)
  rw [hd]
  rfl

/-- A shape-complete wire object whose piles are all empty (0 encoded cards,
not 52). -/
def emptyShape : SerializedShape :=
  { stock := some [], waste := some [],
    foundations := some { s := some [], h := some [], d := some [], c := some [] },
    tableaux := some
      { tab1 := some [], tab2 := some [], tab3 := some [],
        tab4 := some [], tab5 := some [], tab6 := some [], tab7 := some [] },
    drawMode := some 1, moves := some 0 }

/-- The total card count across all encoded piles of a wire object (the
quantity the claim says is validated; missing keys count 0 cards). -/
def encodedCardCount (d : SerializedShape) : Nat :=
  (d.stock.getD []).length + (d.waste.getD []).length +
    (match d.foundations with
     | some f => (f.s.getD []).length + (f.h.getD []).length +
         (f.d.getD []).length + (f.c.getD []).length
     | none => 0) +
    (match d.tableaux with
     | some t => (t.tab1.getD []).length + (t.tab2.getD []).length +
         (t.tab3.getD []).length + (t.tab4.getD []).length +
         (t.tab5.getD []).length + (t.tab6.getD []).length + (t.tab7.getD []).length
     | none => 0)

/-- All required pile keys are present (`stock`, `waste`, the four foundation
keys and the seven tableau keys). -/
def shapeComplete (d : SerializedShape) : Bool :=
  d.stock.isSome && d.waste.isSome &&
    (match d.foundations with
     | some f => f.s.isSome && f.h.isSome && f.d.isSome && f.c.isSome
     | none => false) &&
    (match d.tableaux with
     | some t => t.tab1.isSome && t.tab2.isSome && t.tab3.isSome &&
         t.tab4.isSome && t.tab5.isSome && t.tab6.isSome && t.tab7.isSome
     | none => false)

/-- C9 counterexample: an input with all pile keys present but 0 (≠ 52) total
encoded cards is *not* rejected — `deserializeGameState` happily constructs a
state from it, contradicting the claim that a non-52 total card count is
reported as a structured failure. -/
theorem malformed_state_counterexample :
    encodedCardCount emptyShape = 0 ∧
      deserializeGameState emptyShape =
        .ok { stock := [], waste := [], fSpades := [], fHearts := [],
              fDiamonds := [], fClubs := [], t1 := [], t2 := [], t3 := [],
              t4 := [], t5 := [], t6 := [], t7 := [],
              drawMode := some 1, moves := some 0 } := by
  refine ⟨by decide, ?_⟩
  rfl

/-- C9 amended: `deserializeGameState` performs no card-count validation —
every shape-complete input is decoded into a state, whatever its total card
count; and an input with a missing required pile key (here `stock`, the first
key accessed) fails by *throwing* a `TypeError` (modelled `Except.error`),
not by reporting a structured failure result.  (The solver route separately
rejects only the degenerate 0-card case with a structured response; no layer
checks for 52.) -/
theorem malformed_state_amended (d : SerializedShape) :
    (shapeComplete d = true → (deserializeGameState d).isOk = true) ∧
    (d.stock = none → deserializeGameState d = .error "TypeError") := by
  constructor
  · intro h
    rcases d with ⟨st, wa, fo, ta, dm, mv⟩
    simp only [shapeComplete, Bool.and_eq_true] at h
    obtain ⟨⟨⟨hst, hwa⟩, hfo⟩, hta⟩ := h
    cases st with
    | none => simp at hst
    | some stv =>
    cases wa with
    | none => simp at hwa
    | some wav =>
    cases fo with
    | none => simp at hfo
    | some fov =>
    cases ta with
    | none => simp at hta
    | some tav =>
    rcases fov with ⟨fs, fh, fd, fc⟩
    rcases tav with ⟨u1, u2, u3, u4, u5, u6, u7⟩
    simp only [Bool.and_eq_true] at hfo hta
    obtain ⟨⟨⟨hfs, hfh⟩, hfd⟩, hfc⟩ := hfo
    obtain ⟨⟨⟨⟨⟨⟨ht1, ht2⟩, ht3⟩, ht4⟩, ht5⟩, ht6⟩, ht7⟩ := hta
    cases fs with
    | none => simp at hfs
    | some _ =>
    cases fh with
    | none => simp at hfh
    | some _ =>
    cases fd with
    | none => simp at hfd
    | some _ =>
    cases fc with
    | none => simp at hfc
    | some _ =>
    cases u1 with
    | none => simp at ht1
    | some _ =>
    cases u2 with
    | none => simp at ht2
    | some _ =>
    cases u3 with
    | none => simp at ht3
    | some _ =>
    cases u4 with
    | none => simp at ht4
    | some _ =>
    cases u5 with
    | none => simp at ht5
    | some _ =>
    cases u6 with
    | none => simp at ht6
    | some _ =>
    cases u7 with
    | none => simp at ht7
    | some _ => rfl
  · intro h
    rcases d with ⟨st, wa, fo, ta, dm, mv⟩
    simp only at h
    rw [h] at *
    rfl

theorem malformed_state_amended_witness :
    shapeComplete emptyShape = true ∧
      (deserializeGameState emptyShape).isOk = true :=
  ⟨by decide, (malformed_state_amended emptyShape).1 (by decide)⟩

/-! ### Auto-completer (`core/autocomplete.ts`) -/

/-- `getFoundationBySuit` from `core/autocomplete.ts` (the source's
invalid-suit `throw` is unreachable over the typed `Suit`). -/
def getFoundationBySuit (s : GameState) : Suit → List Card
  | .spades => s.fSpades
  | .hearts => s.fHearts
  | .diamonds => s.fDiamonds
  | .clubs => s.fClubs

/-- The foundation `PileId` for a suit (the `switch` in
`findFoundationMoveForCard`). -/
def foundationIdOf : Suit → PileId
  | .spades => .foundationSpades
  | .hearts => .foundationHearts
  | .diamonds => .foundationDiamonds
  | .clubs => .foundationClubs

/-- `findFoundationMoveForCard` from `core/autocomplete.ts`. -/
def findFoundationMoveForCard (card : Card) (s : GameState) : Option PileId :=
  if canPlaceOnFoundation card (getFoundationBySuit s card.suit) then
    some (foundationIdOf card.suit)
  else none

/-- `isCardSafeToAutoMove` from `core/autocomplete.ts`: rank ≤ 2 is always
safe; otherwise both opposite-color foundations must be non-empty with a top
card of rank at least `card.rank − 1` (the source loop returns `false` on the
first violator; `List.all` is its conjunction). -/
def isCardSafeToAutoMove (card : Card) (s : GameState) : Bool :=
  if card.rank ≤ 2 then true
  else
    let requiredRank := card.rank - 1
    let oppositeColors : List Suit :=
      if card.suit == .spades || card.suit == .clubs then [.hearts, .diamonds]
      else [.spades, .clubs]
    oppositeColors.all fun su =>
      match (getFoundationBySuit s su).getLast? with
      | none => false
      | some top => !(top.rank < requiredRank)

/-- The tableau pile ids in loop order `i = 1..7`. -/
def tabPileIds : List PileId :=
  [.tableau1, .tableau2, .tableau3, .tableau4, .tableau5, .tableau6, .tableau7]

/-- `findAutocompleteMoves` from `core/autocomplete.ts`: the waste's top card
first, then each tableau's top card (if face-up), each kept when it has a
legal own-suit foundation destination and is safe.  `Date.now()` timestamps
are modelled as 0. -/
def findAutocompleteMoves (s : GameState) : List Move :=
  (match s.waste.getLast? with
   | none => []
   | some topCard =>
     match findFoundationMoveForCard topCard s with
     | some fid =>
       if isCardSafeToAutoMove topCard s then
         [{ fromId := .waste, toId := fid, cards := [topCard], timestamp := 0 }]
       else []
     | none => []) ++
  tabPileIds.flatMap fun pid =>
    match (getPileCards s pid).getLast? with
    | none => []
    | some topCard =>
      if topCard.faceUp then
        match findFoundationMoveForCard topCard s with
        | some fid =>
          if isCardSafeToAutoMove topCard s then
            [{ fromId := pid, toId := fid, cards := [topCard], timestamp := 0 }]
          else []
        | none => []
      else []

/-- The claim's wording of the safety rule: rank ≤ 2 is always safe, and a
card of rank ≥ 3 is safe exactly when both opposite-color foundations already
hold at least rank − 1. -/
def safeSpec (card : Card) (s : GameState) : Prop :=
  card.rank ≤ 2 ∨
    (3 ≤ card.rank ∧
      ∀ su ∈ (if isBlack card.suit = true then [Suit.hearts, Suit.diamonds]
              else [Suit.spades, Suit.clubs]),
        ∃ top, (getFoundationBySuit s su).getLast? = some top ∧
          card.rank - 1 ≤ top.rank)

theorem safeSpec_iff (card : Card) (s : GameState) :
    isCardSafeToAutoMove card s = true ↔ safeSpec card s := by
  unfold isCardSafeToAutoMove safeSpec
  by_cases h2 : card.rank ≤ 2
  · simp [h2]
  · have hib : (card.suit == Suit.spades || card.suit == Suit.clubs) = isBlack card.suit := by
      cases card.suit <;> rfl
    simp only [h2, if_false, hib, List.all_eq_true]
    constructor
    · intro h
      refine Or.inr ⟨by omega, ?_⟩
      intro su hsu
      have hh := h su hsu
      cases hlast : (getFoundationBySuit s su).getLast? with
      | none => rw [hlast] at hh; simp at hh
      | some top =>
        rw [hlast] at hh
        exact ⟨top, rfl, by simpa [Nat.not_lt] using hh⟩
    · rintro (h | ⟨h3, h⟩)
      · exact h.elim
      · intro su hsu
        obtain ⟨top, htop, hle⟩ := h su hsu
        rw [htop]
        simpa using Nat.not_lt.mpr hle

theorem candidate_mem (s : GameState) (topCard : Card) (pid : PileId) (m : Move) :
    m ∈ (match findFoundationMoveForCard topCard s with
         | some fid =>
           if isCardSafeToAutoMove topCard s then
             [({ fromId := pid, toId := fid, cards := [topCard], timestamp := 0 } : Move)]
           else []
         | none => ([] : List Move)) ↔
      (canPlaceOnFoundation topCard (getFoundationBySuit s topCard.suit) = true ∧
       safeSpec topCard s ∧
       m = { fromId := pid, toId := foundationIdOf topCard.suit,
             cards := [topCard], timestamp := 0 }) := by
  unfold findFoundationMoveForCard
  by_cases hcan : canPlaceOnFoundation topCard (getFoundationBySuit s topCard.suit) = true
  · simp only [hcan, if_true]
    by_cases hsafe : isCardSafeToAutoMove topCard s = true
    · simp only [hsafe, if_true, List.mem_singleton]
      rw [← safeSpec_iff]
      simp [hcan, hsafe]
    · rw [← safeSpec_iff]
      simp [hsafe]
  · simp only [Bool.not_eq_true] at hcan
    simp [hcan]

/-- C8: Auto-complete candidate rule — `findAutocompleteMoves` returns exactly
the single-card moves of the waste's top card or a tableau's face-up top card
to that card's own-suit foundation for which `canPlaceOnFoundation` holds and
the card is safe (rank ≤ 2 always; rank ≥ 3 only if both opposite-color
foundations already hold at least rank − 1). -/
theorem autocomplete_moves_spec (s : GameState) (m : Move) :
    m ∈ findAutocompleteMoves s ↔
      ((∃ c, s.waste.getLast? = some c ∧
          canPlaceOnFoundation c (getFoundationBySuit s c.suit) = true ∧
          safeSpec c s ∧
          m = { fromId := .waste, toId := foundationIdOf c.suit,
                cards := [c], timestamp := 0 }) ∨
       (∃ pid ∈ tabPileIds, ∃ c, (getPileCards s pid).getLast? = some c ∧
          c.faceUp = true ∧
          canPlaceOnFoundation c (getFoundationBySuit s c.suit) = true ∧
          safeSpec c s ∧
          m = { fromId := pid, toId := foundationIdOf c.suit,
                cards := [c], timestamp := 0 })) := by
  unfold findAutocompleteMoves
  rw [List.mem_append, List.mem_flatMap]
  apply or_congr
  · cases hw : s.waste.getLast? with
    | none => simp
    | some c =>
      rw [candidate_mem]
      constructor
      · rintro ⟨hcan, hsafe, hm⟩
        exact ⟨c, rfl, hcan, hsafe, hm⟩
      · rintro ⟨c', hc', hcan, hsafe, hm⟩
        obtain rfl : c = c' := by injection hc'
        exact ⟨hcan, hsafe, hm⟩
  · constructor
    · rintro ⟨pid, hpid, hmem⟩
      revert hmem
      cases hg : (getPileCards s pid).getLast? with
      | none => intro hmem; simp at hmem
      | some c =>
        by_cases hf : c.faceUp = true
        · simp only [hf, if_true]
          rw [candidate_mem]
          rintro ⟨hcan, hsafe, hm⟩
          exact ⟨pid, hpid, c, hg, hf, hcan, hsafe, hm⟩
        · simp only [Bool.not_eq_true] at hf
          simp [hf]
    · rintro ⟨pid, hpid, c, hc, hf, hcan, hsafe, hm⟩
      refine ⟨pid, hpid, ?_⟩
      simp only [hc, hf, if_true]
      rw [candidate_mem]
      exact ⟨hcan, hsafe, hm⟩

/-! ### Solver (`app/api/solve-game/route.ts`, `solveGameCompletely`)

The solver operates on the *parsed wire object* (piles as arrays of 3-character
card tokens).  Its wall-clock budget checks are modelled as never firing (they
can only turn a run into "not found", never produce `found: true` that a real
run could not).  `stateToString` (`JSON.stringify`) is injective on these
records, so the `visited` set of serialized states is modelled as a list of
states compared by structural equality. -/

/-- The card record built by the route's `parseCard`: suit display string
(`suitMap[c] || c` — the raw character if not a suit letter), hex-parsed rank
(`none` models `NaN`), face flag, and derived color string. -/
structure PCard where
  suit : String
  rank : Option Int
  faceUp : Bool
  color : String
deriving DecidableEq, Repr

/-- `parseCard` from the solver route: `null` for strings shorter than 3
characters.  Note these suit symbols carry no variation selector, unlike the
engine's `Suit` literals. -/
def parseCardTok (cardStr : String) : Option PCard :=
  if cardStr.data.length < 3 then none
  else
    let suit : String :=
      match cardStr.data.head? with
      | some 's' => "♠"
      | some 'h' => "♥"
      | some 'd' => "♦"
      | some 'c' => "♣"
      | some c => String.mk [c]
      | none => ""
    let rank : Option Int := parseIntHex (String.mk cardStr.data.tail.dropLast)
    let faceUp : Bool := String.mk (cardStr.data.drop (cardStr.data.length - 1)) == "1"
    some { suit := suit, rank := rank, faceUp := faceUp,
           color := if suit == "♥" || suit == "♦" then "red" else "black" }

/-- The solver's working state: the parsed wire object (token lists). -/
structure SolverState where
  stock : List String
  waste : List String
  fS : List String
  fH : List String
  fD : List String
  fC : List String
  tab1 : List String
  tab2 : List String
  tab3 : List String
  tab4 : List String
  tab5 : List String
  tab6 : List String
  tab7 : List String
  drawMode : Nat
  moves : Nat
deriving DecidableEq, Repr

/-- The route's view of a parsed serialized state (`state?.x || []` defaults
for absent keys; `drawMode`/`moves` default 0, with `|| 1` applied at the
draw site as in the source). -/
def toSolverState (d : SerializedShape) : SolverState :=
  { stock := d.stock.getD [], waste := d.waste.getD [],
    fS := (match d.foundations with | some f => f.s.getD [] | none => []),
    fH := (match d.foundations with | some f => f.h.getD [] | none => []),
    fD := (match d.foundations with | some f => f.d.getD [] | none => []),
    fC := (match d.foundations with | some f => f.c.getD [] | none => []),
    tab1 := (match d.tableaux with | some t => t.tab1.getD [] | none => []),
    tab2 := (match d.tableaux with | some t => t.tab2.getD [] | none => []),
    tab3 := (match d.tableaux with | some t => t.tab3.getD [] | none => []),
    tab4 := (match d.tableaux with | some t => t.tab4.getD [] | none => []),
    tab5 := (match d.tableaux with | some t => t.tab5.getD [] | none => []),
    tab6 := (match d.tableaux with | some t => t.tab6.getD [] | none => []),
    tab7 := (match d.tableaux with | some t => t.tab7.getD [] | none => []),
    drawMode := d.drawMode.getD 0, moves := d.moves.getD 0 }

/-- `card.endsWith(c)` on a token. -/
def tokEndsWith (tok : String) (c : Char) : Bool := tok.data.getLast? == some c

/-- `tok.slice(0, -1) + '1'`: flip a token's face flag to face-up. -/
def tokFaceUp (tok : String) : String := String.mk (tok.data.dropLast ++ ['1'])

/-- `isGameWon` from `solveGameCompletely`. -/
def isGameWon (s : SolverState) : Bool :=
  s.fS.length + s.fH.length + s.fD.length + s.fC.length == 52

/-- The solver's suit-key ternary chain
(`card.suit === "♠" ? "s" : ... : "c"` — anything unrecognized maps to `"c"`). -/
def suitKeyOf (suit : String) : String :=
  if suit == "♠" then "s" else if suit == "♥" then "h"
  else if suit == "♦" then "d" else "c"

/-- `foundations[suitKey]` (the key is always one of `s/h/d/c` by
construction of `suitKeyOf`). -/
def foundationByKey (s : SolverState) (k : String) : List String :=
  if k == "s" then s.fS else if k == "h" then s.fH
  else if k == "d" then s.fD else s.fC

/-- `newState.foundations[suitKey] = l`. -/
def setFoundationByKey (s : SolverState) (k : String) (l : List String) : SolverState :=
  if k == "s" then { s with fS := l } else if k == "h" then { s with fH := l }
  else if k == "d" then { s with fD := l } else { s with fC := l }

/-- `canMoveToFoundation` from the solver route: the card's rank must equal
`foundation.length + 1`; returns the suit key. -/
def canMoveToFoundationP (card : PCard) (s : SolverState) : Option String :=
  let suitKey := suitKeyOf card.suit
  let foundation := foundationByKey s suitKey
  if card.rank == some ((foundation.length : Int) + 1) then some suitKey else none

/-- `canPlaceOnTableau` from the solver route (on parsed cards):
`cardToPlace.rank === targetCard.rank - 1 && cardToPlace.color !== targetCard.color`
(`NaN` ranks never compare equal). -/
def canPlaceOnTableauP (cardToPlace targetCard : PCard) : Bool :=
  (match cardToPlace.rank, targetCard.rank with
   | some a, some b => a == b - 1
   | _, _ => false) && cardToPlace.color != targetCard.color

/-- `isValidSequence` from the solver route: each adjacent token pair must
parse and satisfy `canPlaceOnTableau(curr, prev)`. -/
def isValidSequenceP : List String → Bool
  | [] => true
  | [_] => true
  | a :: b :: rest =>
    (match parseCardTok a, parseCardTok b with
     | some pa, some pb => canPlaceOnTableauP pb pa
     | _, _ => false) && isValidSequenceP (b :: rest)

/-- `formatCard` from the solver route. -/
def formatCardP (card : PCard) : String :=
  (match card.rank with
   | some 1 => "A"
   | some 11 => "J"
   | some 12 => "Q"
   | some 13 => "K"
   | some r => toString r
   | none => "NaN") ++ card.suit

/-- The solver's tableau entries in `Object.entries` order (numeric-like keys
`"1"`..`"7"` iterate in ascending order). -/
def tabEntries (s : SolverState) : List (Nat × List String) :=
  [(1, s.tab1), (2, s.tab2), (3, s.tab3), (4, s.tab4), (5, s.tab5), (6, s.tab6), (7, s.tab7)]

/-- `newState.tableaux[i] = l`. -/
def setTab (s : SolverState) (i : Nat) (l : List String) : SolverState :=
  match i with
  | 1 => { s with tab1 := l }
  | 2 => { s with tab2 := l }
  | 3 => { s with tab3 := l }
  | 4 => { s with tab4 := l }
  | 5 => { s with tab5 := l }
  | 6 => { s with tab6 := l }
  | 7 => { s with tab7 := l }
  | _ => s

/-- "Flip hidden card if revealed": when the (new) last token of a tableau
ends in `'0'`, rewrite its flag to `'1'`. -/
def flipLastTokIfDown (l : List String) : List String :=
  match l.getLast? with
  | none => l
  | some t => if tokEndsWith t '0' then l.dropLast ++ [tokFaceUp t] else l

/-- A generated solver move: the descriptor fields pushed into the move list
(`move`, `from`, `to`, `card`) plus the successor state.  The source fields
`from`/`to` are named `fromKey`/`toKey` (`from` is a Lean keyword). -/
structure SolverMove where
  move : String
  fromKey : String
  toKey : String
  card : String
  newState : SolverState
deriving DecidableEq, Repr

/-- `getFoundationMoves` from the solver route: the waste's top card, then
each tableau's top face-up card, whenever `canMoveToFoundation` accepts it.
The tableau branch pops the *last token of the full pile* (which is the
checked face-up card only when face-down cards form a prefix) and flips the
newly exposed token if face-down. -/
def getFoundationMovesP (s : SolverState) : List SolverMove :=
  (match s.waste.getLast? with
   | none => []
   | some topTok =>
     match parseCardTok topTok with
     | none => []
     | some topWasteCard =>
       match canMoveToFoundationP topWasteCard s with
       | none => []
       | some suitKey =>
         [{ move := "waste_to_foundation", fromKey := "waste",
            toKey := "foundation-" ++ suitKey, card := formatCardP topWasteCard,
            newState := setFoundationByKey { s with waste := s.waste.dropLast }
              suitKey (foundationByKey s suitKey ++ [topTok]) }]) ++
  (tabEntries s).flatMap fun e =>
    let faceUpCards := e.2.filter (tokEndsWith · '1')
    match faceUpCards.getLast? with
    | none => []
    | some fuTok =>
      match parseCardTok fuTok with
      | none => []
      | some topCard =>
        match canMoveToFoundationP topCard s with
        | none => []
        | some suitKey =>
          let popped := e.2.getLast?.getD ""
          let rest := flipLastTokIfDown e.2.dropLast
          [{ move := "tableau_to_foundation", fromKey := "tableau-" ++ toString e.1,
             toKey := "foundation-" ++ suitKey, card := formatCardP topCard,
             newState := setFoundationByKey (setTab s e.1 rest) suitKey
               (foundationByKey s suitKey ++ [popped]) }]

/-- `getTableauMoves` from the solver route: for every source tableau, every
sequence length `1 ≤ n ≤ min(faceUpCount, 13)` whose trailing face-up run is
valid, and every *other* tableau, a move when the destination's face-up part
is empty (Kings only) or its top face-up card accepts the run's bottom card.
The moved tokens are the trailing `n` tokens of the *full* source pile
(`splice(-n, n)`). -/
def getTableauMovesP (s : SolverState) : List SolverMove :=
  (tabEntries s).flatMap fun fe =>
    let faceUpCards := fe.2.filter (tokEndsWith · '1')
    if faceUpCards.isEmpty then []
    else
      (List.range' 1 (min faceUpCards.length 13)).flatMap fun seqLength =>
        let sequence := faceUpCards.drop (faceUpCards.length - seqLength)
        if isValidSequenceP sequence then
          match sequence.head? with
          | none => []
          | some bottomTok =>
            match parseCardTok bottomTok with
            | none => []
            | some bottomCard =>
              (tabEntries s).flatMap fun te =>
                if fe.1 == te.1 then []
                else
                  let movedCards := fe.2.drop (fe.2.length - seqLength)
                  let newFrom := flipLastTokIfDown (fe.2.take (fe.2.length - seqLength))
                  let mkMove : SolverMove :=
                    { move := "tableau_to_tableau",
                      fromKey := "tableau-" ++ toString fe.1,
                      toKey := "tableau-" ++ toString te.1,
                      card := formatCardP bottomCard,
                      newState := setTab (setTab s fe.1 newFrom) te.1 (te.2 ++ movedCards) }
                  let toFaceUpCards := te.2.filter (tokEndsWith · '1')
                  if toFaceUpCards.isEmpty then
                    if bottomCard.rank == some 13 then [mkMove] else []
                  else
                    match toFaceUpCards.getLast? with
                    | none => []
                    | some toTopTok =>
                      match parseCardTok toTopTok with
                      | none => []
                      | some topCard =>
                        if canPlaceOnTableauP bottomCard topCard then [mkMove] else []
        else []

/-- `getWasteMoves` from the solver route: the waste's top card onto each
tableau — Kings onto tableaux with no face-up cards, otherwise onto an
accepting top face-up card.  The popped waste token is pushed as-is. -/
def getWasteMovesP (s : SolverState) : List SolverMove :=
  match s.waste.getLast? with
  | none => []
  | some topTok =>
    match parseCardTok topTok with
    | none => []
    | some topWasteCard =>
      (tabEntries s).flatMap fun e =>
        let faceUpCards := e.2.filter (tokEndsWith · '1')
        let mkMove : SolverMove :=
          { move := "waste_to_tableau", fromKey := "waste",
            toKey := "tableau-" ++ toString e.1, card := formatCardP topWasteCard,
            newState := setTab { s with waste := s.waste.dropLast } e.1 (e.2 ++ [topTok]) }
        if faceUpCards.isEmpty then
          if topWasteCard.rank == some 13 then [mkMove] else []
        else
          match faceUpCards.getLast? with
          | none => []
          | some toTopTok =>
            match parseCardTok toTopTok with
            | none => []
            | some topCard =>
              if canPlaceOnTableauP topWasteCard topCard then [mkMove] else []

/-- The draw loop of `getStockMove`: up to `drawMode` times, pop the *last*
token of the stock array, flip it face-up, and push it onto the waste.  (The
Rules Engine's `drawFromStock` takes cards from the *front* of the stock —
this is the divergence behind claim C1's counterexample.) -/
def drawLoopP : Nat → SolverState → SolverState
  | 0, s => s
  | n + 1, s =>
    match s.stock.getLast? with
    | none => s
    | some tok =>
      let faceUpCard := if tokEndsWith tok '0' then tokFaceUp tok else tok
      drawLoopP n { s with stock := s.stock.dropLast, waste := s.waste ++ [faceUpCard] }

/-- `getStockMove` from the solver route (`state?.drawMode || 1`). -/
def getStockMoveP (s : SolverState) : Option SolverMove :=
  if s.stock.isEmpty then none
  else
    let dm := if s.drawMode == 0 then 1 else s.drawMode
    some { move := "draw_stock", fromKey := "stock", toKey := "waste",
           card := "stock", newState := drawLoopP dm s }

/-- `getAllPossibleMoves` from the solver route (the time-budget early return
is modelled as never firing). -/
def getAllPossibleMoves (s : SolverState) : List SolverMove :=
  getFoundationMovesP s ++ getTableauMovesP s ++ getWasteMovesP s ++
    (match getStockMoveP s with | some m => [m] | none => [])

/-- Structural prefix test on character lists. -/
def startsWithChars : List Char → List Char → Bool
  | _, [] => true
  | [], _ :: _ => false
  | a :: as, b :: bs => a == b && startsWithChars as bs

/-- Structural substring test on character lists. -/
def containsChars : List Char → List Char → Bool
  | [], pat => pat.isEmpty
  | a :: rest, pat => startsWithChars (a :: rest) pat || containsChars rest pat

/-- `a.move.includes('foundation')`. -/
def includesFoundation (str : String) : Bool :=
  containsChars str.data "foundation".data

/-- The move-priority comparator of the solver's `moves.sort(...)`. -/
def moveCmp (a b : SolverMove) : Int :=
  if includesFoundation a.move && !includesFoundation b.move then -1
  else if !includesFoundation a.move && includesFoundation b.move then 1
  else if a.move == "draw_stock" then 1
  else if b.move == "draw_stock" then -1
  else 0

/-- Stable insertion of `x` after every element `y` with `moveCmp y x ≤ 0`. -/
def sortInsert (x : SolverMove) : List SolverMove → List SolverMove
  | [] => [x]
  | y :: ys => if moveCmp y x ≤ 0 then y :: sortInsert x ys else x :: y :: ys

/-- `Array.prototype.sort` with `moveCmp`: a stable sort (the comparator is a
consistent three-level priority — foundation moves, then other card moves,
then the draw — so every stable sort produces the same result). -/
def sortMoves (l : List SolverMove) : List SolverMove :=
  l.foldl (fun acc x => sortInsert x acc) []

/-- One element of the returned `optimalSequence`
(`{move, from, to, card, moveNumber}`). -/
structure SeqEntry where
  move : String
  fromKey : String
  toKey : String
  card : String
  moveNumber : Nat
deriving DecidableEq, Repr

/-- The path entry `dfs` appends for a chosen move. -/
def mkSeqEntry (mv : SolverMove) (n : Nat) : SeqEntry :=
  { move := mv.move, fromKey := mv.fromKey, toKey := mv.toKey,
    card := mv.card, moveNumber := n }

/-- The `for (const move of moves)` loop body of `dfs`, parameterized by the
recursive call at the next depth (`next`): try each move in order, returning
the first found result; the `visited` set mutations persist across siblings. -/
def dfsLoopF
    (next : SolverState → List SeqEntry → List SolverState →
      Bool × List SeqEntry × List SolverState) :
    SolverState → List SeqEntry → List SolverMove → List SolverState →
      Bool × List SeqEntry × List SolverState
  | _, _, [], visited => (false, [], visited)
  | s, path, mv :: rest, visited =>
    match next mv.newState (path ++ [mkSeqEntry mv (path.length + 1)]) visited with
    | (true, seq, vis) => (true, seq, vis)
    | (false, _, vis) => dfsLoopF next s path rest vis

/-- `dfs` from `solveGameCompletely`.  The source recursion is bounded by
`depth > maxDepth` with `maxDepth = 200`; `fuel = 201 - depth` makes that
bound structural (`fuel = 0` is exactly `depth = 201 > 200`).  Order of the
checks matches the source: won, then visited, then the move loop with the
current state added to `visited`.  The wall-clock cutoff is modelled as never
firing. -/
def dfsAux : Nat → SolverState → List SeqEntry → List SolverState →
    Bool × List SeqEntry × List SolverState
  | 0, _, _, visited => (false, [], visited)
  | fuel + 1, s, path, visited =>
    if isGameWon s then (true, path, visited)
    else if visited.contains s then (false, [], visited)
    else dfsLoopF (dfsAux fuel) s path (sortMoves (getAllPossibleMoves s)) (s :: visited)
termination_by structural fuel _ _ _ => fuel

/-- `solveGameCompletely` from the solver route, up to its result record:
the found flag and the move sequence (`timeSpent` is wall-clock and is not
modelled). -/
def solveGameCompletely (s : SolverState) : Bool × List SeqEntry :=
  match dfsAux 201 s [] [] with
  | (found, seq, _) => (found, seq)

/-- A descriptor trace realizable in the solver's own move semantics:
`SolverReaches s k ds` holds when following the descriptors in `ds` through
moves generated by `getAllPossibleMoves` (numbering from `k + 1`) leads from
`s` to a state the solver recognizes as won. -/
inductive SolverReaches : SolverState → Nat → List SeqEntry → Prop where
  | won {s : SolverState} {k : Nat} : isGameWon s = true → SolverReaches s k []
  | step {s : SolverState} {k : Nat} {ds : List SeqEntry} (mv : SolverMove) :
      mv ∈ getAllPossibleMoves s →
      SolverReaches mv.newState (k + 1) ds →
      SolverReaches s k (mkSeqEntry mv (k + 1) :: ds)

theorem mem_sortInsert (x y : SolverMove) (l : List SolverMove) :
    y ∈ sortInsert x l ↔ y = x ∨ y ∈ l := by
  induction l with
  | nil => simp [sortInsert]
  | cons z zs ih =>
    unfold sortInsert
    split
    · simp only [List.mem_cons, ih]
      tauto
    · simp only [List.mem_cons]

theorem mem_sortMoves (l : List SolverMove) (y : SolverMove) :
    y ∈ sortMoves l ↔ y ∈ l := by
  suffices h : ∀ acc, y ∈ l.foldl (fun acc x => sortInsert x acc) acc ↔ y ∈ acc ∨ y ∈ l by
    have := h []
    simpa [sortMoves] using this
  induction l with
  | nil => intro acc; simp
  | cons x xs ih =>
    intro acc
    rw [List.foldl_cons, ih, mem_sortInsert]
    simp only [List.mem_cons]
    tauto

theorem dfsLoopF_sound
    (next : SolverState → List SeqEntry → List SolverState →
      Bool × List SeqEntry × List SolverState)
    (hnext : ∀ s' path' v', (next s' path' v').1 = true →
      ∃ tail, (next s' path' v').2.1 = path' ++ tail ∧
        SolverReaches s' path'.length tail) :
    ∀ (ms : List SolverMove) (s : SolverState) (path : List SeqEntry)
      (visited : List SolverState),
      (∀ mv ∈ ms, mv ∈ getAllPossibleMoves s) →
      (dfsLoopF next s path ms visited).1 = true →
      ∃ tail, (dfsLoopF next s path ms visited).2.1 = path ++ tail ∧
        SolverReaches s path.length tail := by
  intro ms
  induction ms with
  | nil =>
    intro s path visited hsub h
    simp [dfsLoopF] at h
  | cons mv rest ih =>
    intro s path visited hsub h
    rw [dfsLoopF] at h ⊢
    rcases hres : next mv.newState (path ++ [mkSeqEntry mv (path.length + 1)]) visited with
      ⟨b, seq, vis⟩
    cases b with
    | true =>
      obtain ⟨tail, ht, hreach⟩ :=
        hnext mv.newState (path ++ [mkSeqEntry mv (path.length + 1)]) visited
          (by rw [hres])
      rw [hres] at ht
      simp only at ht ⊢
      refine ⟨mkSeqEntry mv (path.length + 1) :: tail, ?_, ?_⟩
      · rw [ht, List.append_assoc]
        rfl
      · have hlen : (path ++ [mkSeqEntry mv (path.length + 1)]).length = path.length + 1 := by
          simp
        rw [hlen] at hreach
        exact SolverReaches.step mv (hsub mv (List.mem_cons_self mv rest)) hreach
    | false =>
      rw [hres] at h
      exact ih s path vis (fun x hx => hsub x (List.mem_cons_of_mem mv hx)) h

theorem dfsAux_sound : ∀ (fuel : Nat) (s : SolverState) (path : List SeqEntry)
    (visited : List SolverState),
    (dfsAux fuel s path visited).1 = true →
    ∃ tail, (dfsAux fuel s path visited).2.1 = path ++ tail ∧
      SolverReaches s path.length tail := by
  intro fuel
  induction fuel with
  | zero =>
    intro s path visited h
    simp [dfsAux] at h
  | succ n ihn =>
    intro s path visited h
    rw [dfsAux] at h ⊢
    by_cases hw : isGameWon s = true
    · simp only [hw, if_true] at h ⊢
      exact ⟨[], by simp, SolverReaches.won hw⟩
    · simp only [hw, if_false] at h ⊢
      by_cases hv : visited.contains s = true
      · simp only [hv, if_true] at h
        simp at h
      · simp only [hv, if_false] at h ⊢
        exact dfsLoopF_sound (dfsAux n) ihn (sortMoves (getAllPossibleMoves s)) s path
          (s :: visited) (fun mv hm => (mem_sortMoves _ mv).mp hm) h

/-- An ascending run `A..rank n` of one suit, face-up, with the deck factory's
canonical ids — a foundation pile in a mid-game position. -/
def cexFoundation (su : Suit) (n : Nat) : List Card :=
  (List.range' 1 n).map fun r =>
    { id := su.symbol ++ "-" ++ toString r, suit := su, rank := r, faceUp := true }

/-- The Q♠ of the C1 counterexample, face-down in the stock. -/
def queenSpadesDown : Card :=
  { id := "♠︎-12", suit := .spades, rank := 12, faceUp := false }

/-- The C1 counterexample position: hearts, diamonds and clubs complete,
spades built to J, and a 2-card stock `[K♠, Q♠]` (front to back); waste and
all tableaux empty — 52 cards in total, two draws and two foundation moves
from the win. -/
def solverCexState : GameState :=
  { initialGameState 1 with
      fHearts := cexFoundation .hearts 13,
      fDiamonds := cexFoundation .diamonds 13,
      fClubs := cexFoundation .clubs 13,
      fSpades := cexFoundation .spades 11,
      stock := [kingSpadesDown, queenSpadesDown] }

/-- The parsed wire object of `solverCexState` — the solver's input — written
out as explicit card tokens. -/
def solverCexWire : SolverState :=
  { stock := ["sd0", "sc0"], waste := [],
    fS := ["s11", "s21", "s31", "s41", "s51", "s61", "s71", "s81", "s91", "sa1", "sb1"],
    fH := ["h11", "h21", "h31", "h41", "h51", "h61", "h71", "h81", "h91", "ha1", "hb1", "hc1", "hd1"],
    fD := ["d11", "d21", "d31", "d41", "d51", "d61", "d71", "d81", "d91", "da1", "db1", "dc1", "dd1"],
    fC := ["c11", "c21", "c31", "c41", "c51", "c61", "c71", "c81", "c91", "ca1", "cb1", "cc1", "cd1"],
    tab1 := [], tab2 := [], tab3 := [], tab4 := [], tab5 := [], tab6 := [],
    tab7 := [], drawMode := 1, moves := 0 }

/-- The engine pile for a sequence step's pile-name string: the engine's 13
`PileId` names plus the solver's abbreviated foundation names
(`foundation-s/h/d/c`), charitably bridged to the corresponding engine ids
(the solver never emits the long names). -/
def pileIdOfKey : String → Option PileId
  | "stock" => some .stock
  | "waste" => some .waste
  | "foundation-spades" => some .foundationSpades
  | "foundation-hearts" => some .foundationHearts
  | "foundation-diamonds" => some .foundationDiamonds
  | "foundation-clubs" => some .foundationClubs
  | "foundation-s" => some .foundationSpades
  | "foundation-h" => some .foundationHearts
  | "foundation-d" => some .foundationDiamonds
  | "foundation-c" => some .foundationClubs
  | "tableau-1" => some .tableau1
  | "tableau-2" => some .tableau2
  | "tableau-3" => some .tableau3
  | "tableau-4" => some .tableau4
  | "tableau-5" => some .tableau5
  | "tableau-6" => some .tableau6
  | "tableau-7" => some .tableau7
  | _ => none

/-- Replaying a returned sequence through the Rules Engine, as C1 specifies:
each `draw_stock` step runs `drawFromStock`; every other step is replayed via
`applyMove` between the step's piles, trying *every* trailing run of the
source pile (with the cards exactly as stored there) as the moved cards —
the most charitable honest reading, since `isValidMove` only ever accepts
moves whose cards sit at the source pile's tail.  The replay succeeds when
some choice of run lengths reaches a state with `isComplete = true`. -/
def replaySeq : List SeqEntry → GameState → Bool
  | [], g => g.isComplete
  | e :: rest, g =>
    if e.move == "draw_stock" then replaySeq rest (drawFromStock g)
    else
      match pileIdOfKey e.fromKey, pileIdOfKey e.toKey with
      | some f, some t =>
        (List.range (getPileCards g f).length).any fun j =>
          let cards := (getPileCards g f).drop ((getPileCards g f).length - (j + 1))
          match applyMove { fromId := f, toId := t, cards := cards, timestamp := 0 } g with
          | .ok gg => replaySeq rest gg
          | .error _ => false
      | _, _ => false

set_option maxRecDepth 100000 in
set_option maxHeartbeats 8000000 in
/-- C1 counterexample: on `solverCexState`, `solveGameCompletely` reports
`found: true` with the 4-step sequence below — but its two `draw_stock` steps
were computed by popping the *back* of the stock array (drawing Q♠ first),
while the Rules Engine's `drawFromStock` draws from the *front* (K♠ first).
Replaying the sequence therefore dies at step 2: after the first engine draw
the waste holds K♠, and no waste→spades-foundation move is legal (the spades
foundation expects Q♠), so the replay cannot terminate in a complete state. -/
theorem solver_soundness_counterexample :
    toSolverState (serializeGameState solverCexState) = solverCexWire ∧
    solveGameCompletely solverCexWire =
      (true,
       [⟨"draw_stock", "stock", "waste", "stock", 1⟩,
        ⟨"waste_to_foundation", "waste", "foundation-s", "Q♠", 2⟩,
        ⟨"draw_stock", "stock", "waste", "stock", 3⟩,
        ⟨"waste_to_foundation", "waste", "foundation-s", "K♠", 4⟩]) ∧
    replaySeq
      [⟨"draw_stock", "stock", "waste", "stock", 1⟩,
       ⟨"waste_to_foundation", "waste", "foundation-s", "Q♠", 2⟩,
       ⟨"draw_stock", "stock", "waste", "stock", 3⟩,
       ⟨"waste_to_foundation", "waste", "foundation-s", "K♠", 4⟩]
      solverCexState = false := by
  refine ⟨by decide, by decide, by decide⟩

/-- C1 amended: whenever `solveGameCompletely` returns `found: true`, the
returned sequence is the descriptor trace of a genuine move-by-move path in
the *solver's own* move semantics (`getAllPossibleMoves`) from the input
state to a state with all 52 cards on foundations.  Replaying the sequence
through the Rules Engine's `applyMove`/`drawFromStock` is *not* guaranteed:
the solver's draw step pops the back of the stock array while `drawFromStock`
takes from the front (and the solver emits abbreviated foundation pile
names), so draws diverge — see the counterexample. -/
theorem solver_internal_soundness (s : SolverState) (seq : List SeqEntry)
    (h : solveGameCompletely s = (true, seq)) : SolverReaches s 0 seq := by
  unfold solveGameCompletely at h
  rcases hr : dfsAux 201 s [] [] with ⟨b, sq, vis⟩
  rw [hr] at h
  have hb : b = true := congrArg Prod.fst h
  have hs : sq = seq := congrArg Prod.snd h
  obtain ⟨tail, ht, hreach⟩ := dfsAux_sound 201 s [] [] (by rw [hr, hb])
  rw [hr] at ht
  simp only [List.nil_append] at ht
  rw [← hs, ht]
  simpa using hreach

/-- A complete position: all four foundations full. -/
def wonGameState : GameState :=
  { initialGameState 1 with
      fSpades := cexFoundation .spades 13,
      fHearts := cexFoundation .hearts 13,
      fDiamonds := cexFoundation .diamonds 13,
      fClubs := cexFoundation .clubs 13,
      isComplete := true }

set_option maxRecDepth 100000 in
set_option maxHeartbeats 8000000 in
theorem solver_internal_soundness_witness :
    SolverReaches (toSolverState (serializeGameState wonGameState)) 0 [] :=
  solver_internal_soundness (toSolverState (serializeGameState wonGameState)) []
    (by decide)

end Solitaire
